import Mathlib

/-!
Verification of the ETL pipeline library (`etl/pipeline.py`,
`etl/transformers/data_transformer.py`, `etl/validators/data_validator.py`).

The data model is a shallow embedding of a pandas `DataFrame` as used by this
repository: an ordered list of column names together with a list of rows, each
row a list of cells. A cell is `Option Val` where `none` models the missing
marker (pandas `NaN` / Python `None`) and `Val` is either a rational number
(modelling Python/pandas numeric values with exact arithmetic) or a string.
Fallible operations return `Except String Table`; a `.error` models a raised
Python exception.
-/

namespace ETL

/-- Scalar value stored in a table cell: a number (ints and floats of the
source, modelled with exact rational arithmetic) or a string. -/
inductive Val where
  | num (q : ℚ)
  | str (s : String)
deriving DecidableEq, Repr

/-- Table cell; `none` is the missing marker (pandas `NaN`). -/
abbrev Cell := Option Val

/-- One table row, cells in column order. -/
abbrev Row := List Cell

/-- In-memory table: ordered column names plus rows (embedding of the pandas
`DataFrame` manipulated by the pipeline). -/
structure Table where
  cols : List String
  rows : List Row
deriving DecidableEq, Repr

/-- Well-formedness (the spec's row-count/width invariant): every row has one
cell per column. -/
def Table.WF (t : Table) : Prop :=
  ∀ r ∈ t.rows, r.length = t.cols.length

instance (t : Table) : Decidable t.WF := by
  unfold Table.WF; infer_instance

/-- Index of a column name, `none` when absent. -/
def colIdx (cols : List String) (c : String) : Option ℕ :=
  cols.findIdx? (fun x => x == c)

/-- Cells of column `i`, top to bottom. -/
def colCells (t : Table) (i : ℕ) : List Cell :=
  t.rows.map (fun r => r.getD i none)

/-- Pointwise update of column `i`. -/
def mapCol (t : Table) (i : ℕ) (f : Cell → Cell) : Table :=
  { t with rows := t.rows.map (fun r => r.set i (f (r.getD i none))) }

/-- Overwrite every cell of column `i` with the constant `c` (models the
pandas scalar column assignment `df[column] = 0`, which also overwrites
missing cells). -/
def setColConst (t : Table) (i : ℕ) (c : Cell) : Table :=
  mapCol t i (fun _ => c)

/-- Number of missing cells in a row. -/
def rowMissing (r : Row) : ℕ := r.countP (fun c => c.isNone)

/-- Total number of missing cells in the table (`df.isnull().sum().sum()`). -/
def missingCount (t : Table) : ℕ := (t.rows.map rowMissing).sum

/-- Non-missing values of a cell list. -/
def presentVals (cells : List Cell) : List Val := cells.filterMap id

/-- Numeric values of a cell list (missing and string cells skipped, the way
pandas reductions skip `NaN`). -/
def colNums (cells : List Cell) : List ℚ :=
  cells.filterMap (fun c =>
    match c with
    | some (.num q) => some q
    | _ => none)

/-- String values of a cell list. -/
def colStrs (cells : List Cell) : List String :=
  cells.filterMap (fun c =>
    match c with
    | some (.str s) => some s
    | _ => none)

/-- True when some cell holds a string. -/
def hasStrCell (cells : List Cell) : Bool :=
  cells.any (fun c =>
    match c with
    | some (.str _) => true
    | _ => false)

/-- True when some cell holds a number. -/
def hasNumCell (cells : List Cell) : Bool :=
  cells.any (fun c =>
    match c with
    | some (.num _) => true
    | _ => false)

/-- Numeric value of a digit list (most significant first). -/
def digitsVal (ds : List Char) : ℕ :=
  ds.foldl (fun a c => a * 10 + (c.toNat - 48)) 0

/-- Parse an unsigned decimal literal: digits with an optional single point,
at least one digit overall (accepting, like Python's `float`, the forms
`12`, `1.5`, `.5` and `2.`). -/
def parseUnsigned? (cs : List Char) : Option ℚ :=
  let ip := cs.takeWhile Char.isDigit
  let rest := cs.drop ip.length
  match rest with
  | [] => if ip.isEmpty then none else some (digitsVal ip)
  | '.' :: fp =>
    if fp.all Char.isDigit ∧ ¬ (ip.isEmpty ∧ fp.isEmpty) then
      some ((digitsVal ip : ℚ) + (digitsVal fp : ℚ) / (10 : ℚ) ^ fp.length)
    else none
  | _ => none

/-- Model of Python's `float(str)` on plain decimal literals: optional sign,
surrounding whitespace stripped. (Exponents and the `inf` and `nan` spellings
are not modelled; no verified property depends on them.) -/
def parseFloat? (s : String) : Option ℚ :=
  match s.trim.toList with
  | '-' :: rest => (parseUnsigned? rest).map (fun q => -q)
  | '+' :: rest => parseUnsigned? rest
  | cs => parseUnsigned? cs

/-- Model of Python's `int(str)`: optional sign then digits only. -/
def parseInt? (s : String) : Option ℤ :=
  match s.trim.toList with
  | '-' :: rest =>
    if rest.all Char.isDigit ∧ ¬ rest.isEmpty then some (-(digitsVal rest : ℤ)) else none
  | '+' :: rest =>
    if rest.all Char.isDigit ∧ ¬ rest.isEmpty then some (digitsVal rest : ℤ) else none
  | cs =>
    if cs.all Char.isDigit ∧ ¬ cs.isEmpty then some (digitsVal cs : ℤ) else none

namespace DataTransformer

/-- Duplicate-keep policy of `drop_duplicates`: `first`, `last`, or `False`
(drop every member of a duplicate group), written `dropAll` here. -/
inductive Keep where
  | first
  | last
  | dropAll
deriving DecidableEq, Repr

/-- Comparison key of a row for duplicate detection: the whole row, or its
projection to the `subset` columns. -/
def dupKey (cols : List String) (subset : Option (List String)) (r : Row) : List Cell :=
  match subset with
  | none => r
  | some sub => sub.map (fun c =>
      match colIdx cols c with
      | some i => r.getD i none
      | none => none)

/-- Keep the first occurrence of each key; `seen` holds keys already emitted. -/
def dedupFirstAux {α K : Type} [DecidableEq K] (key : α → K) (seen : List K) :
    List α → List α
  | [] => []
  | x :: xs =>
    if key x ∈ seen then dedupFirstAux key seen xs
    else x :: dedupFirstAux key (key x :: seen) xs

/-- `drop_duplicates(keep='first')` on a list. -/
def dedupFirst {α K : Type} [DecidableEq K] (key : α → K) (l : List α) : List α :=
  dedupFirstAux key [] l

/-- `drop_duplicates(keep='last')` on a list: keep the last occurrence of each
key, survivors in original order. -/
def dedupLast {α K : Type} [DecidableEq K] (key : α → K) (l : List α) : List α :=
  (dedupFirst key l.reverse).reverse

/-- `drop_duplicates(keep=False)` on a list: keep exactly the elements whose
key occurs once in the whole list. -/
def dedupAll {α K : Type} [DecidableEq K] (key : α → K) (l : List α) : List α :=
  l.filter (fun x => (l.countP (fun y => key y == key x)) == 1)

/-- True when the requested duplicate-comparison subset only names existing
columns (an absent subset compares on all columns and is always valid). -/
def subsetValid (cols : List String) (subset : Option (List String)) : Bool :=
  match subset with
  | none => true
  | some sub => sub.all (fun c => c ∈ cols)

/-- `DataTransformer.remove_duplicates`: `df.drop_duplicates(subset, keep)`.
pandas raises a `KeyError` when `subset` names an absent column. -/
def remove_duplicates (t : Table) (subset : Option (List String)) (keep : Keep) :
    Except String Table :=
  if subsetValid t.cols subset then
    .ok { t with rows :=
      match keep with
      | .first => dedupFirst (dupKey t.cols subset) t.rows
      | .last => dedupLast (dupKey t.cols subset) t.rows
      | .dropAll => dedupAll (dupKey t.cols subset) t.rows }
  else .error "KeyError: subset"

/-- `df.dropna()`: drop every row containing a missing cell. -/
def dropna (t : Table) : Table :=
  { t with rows := t.rows.filter (fun r => r.all (fun c => c.isSome)) }

/-- `df.fillna(v)`: replace every missing cell by `v`. -/
def fillna (t : Table) (v : Val) : Table :=
  { t with rows := t.rows.map (fun r => r.map (fun c => some (c.getD v))) }

/-- Forward fill: `lastv` carries, per column, the most recent non-missing
value (already filled), seeding each missing cell. -/
def ffillAux (lastv : Row) : List Row → List Row
  | [] => []
  | r :: rs =>
    let r2 := List.zipWith (fun lv c =>
      match c with
      | some v => some v
      | none => lv) lastv r
    r2 :: ffillAux r2 rs

/-- `df.ffill()`. -/
def ffillTable (t : Table) : Table :=
  { t with rows := ffillAux (t.cols.map (fun _ => none)) t.rows }

/-- `df.bfill()`: forward fill on the reversed row order. -/
def bfillTable (t : Table) : Table :=
  { t with rows := (ffillAux (t.cols.map (fun _ => none)) t.rows.reverse).reverse }

/-- The four strategies accepted by `handle_missing_values`. -/
def validStrategies : List String := ["drop", "fill", "forward_fill", "backward_fill"]

/-- `DataTransformer.handle_missing_values`. Mirrors the source exactly: when
the table has no missing cell it returns early, before the strategy name is
examined; an unknown strategy raises only past that guard. -/
def handle_missing_values (t : Table) (strategy : String) (fill_value : Val) :
    Except String Table :=
  if missingCount t = 0 then .ok t
  else if strategy = "drop" then .ok (dropna t)
  else if strategy = "fill" then .ok (fillna t fill_value)
  else if strategy = "forward_fill" then .ok (ffillTable t)
  else if strategy = "backward_fill" then .ok (bfillTable t)
  else .error ("Estratégia desconhecida: " ++ strategy)

/-- `DataTransformer.rename_columns`: `df.rename(columns=mapping)` relabels
each column through the mapping, leaving unmapped names unchanged. -/
def rename_columns (t : Table) (mapping : List (String × String)) : Table :=
  { t with cols := t.cols.map (fun c => (mapping.lookup c).getD c) }

/-- `DataTransformer.select_columns`: project to the requested columns in the
requested order; absent names are skipped (warning only, no error). -/
def select_columns (t : Table) (columns : List String) : Table :=
  let keepCols := columns.filter (fun c => c ∈ t.cols)
  { cols := keepCols,
    rows := t.rows.map (fun r => keepCols.map (fun c =>
      match colIdx t.cols c with
      | some i => r.getD i none
      | none => none)) }

/-- `DataTransformer.filter_rows`: keep the rows satisfying the predicate
(the source's boolean-Series mask, row-wise). -/
def filter_rows (t : Table) (condition : Row → Bool) : Table :=
  { t with rows := t.rows.filter condition }

/-- `astype` on one cell. `none` signals a conversion failure for the cell
(and hence for its whole column). Mirrors pandas: `NaN` survives a `float`
conversion, becomes the string `"nan"` under `str`, and makes an `int`
conversion fail; `float`→`int` truncates toward zero; strings are parsed for
numeric targets. -/
def astypeCell (dtype : String) (c : Cell) : Option Cell :=
  match c with
  | none =>
    if dtype = "float" then some none
    else if dtype = "str" then some (some (.str "nan"))
    else none
  | some (.num q) =>
    if dtype = "int" then some (some (.num ((q.num / (q.den : ℤ) : ℤ) : ℚ)))
    else if dtype = "float" then some (some (.num q))
    else if dtype = "str" then some (some (.str (toString q)))
    else none
  | some (.str s) =>
    if dtype = "str" then some (some (.str s))
    else if dtype = "int" then (parseInt? s).map (fun n => some (.num (n : ℚ)))
    else if dtype = "float" then (parseFloat? s).map (fun q => some (.num q))
    else none

/-- Convert one column; a failure on any cell leaves the column untouched
(the source catches the per-column exception and only logs it). An absent
column is skipped. -/
def convertColumn (t : Table) (column : String) (dtype : String) : Table :=
  match colIdx t.cols column with
  | none => t
  | some i =>
    match (colCells t i).mapM (astypeCell dtype) with
    | none => t
    | some newCells =>
      { t with rows := (t.rows.zip newCells).map (fun p => p.1.set i p.2) }

/-- `DataTransformer.convert_data_types`: best-effort per-column conversion,
in the mapping's order; the overall call never raises. -/
def convert_data_types (t : Table) (dtype_mapping : List (String × String)) : Table :=
  dtype_mapping.foldl (fun acc p => convertColumn acc p.1 p.2) t

/-- Minmax formula on one cell; missing cells stay missing (`NaN` arithmetic
propagates `NaN`). -/
def minmaxCell (mn mx : ℚ) (c : Cell) : Cell :=
  match c with
  | some (.num q) => some (.num ((q - mn) / (mx - mn)))
  | other => other

/-- Mean of a rational list. -/
def meanQ (l : List ℚ) : ℚ := l.sum / l.length

/-- Sample variance (pandas `Series.std` squared, `ddof = 1`); only used for
lists of length at least two. -/
def svarQ (l : List ℚ) : ℚ :=
  (l.map (fun v => (v - meanQ l) ^ 2)).sum / ((l.length : ℚ) - 1)

/-- Zscore formula on one cell. The source divides `v - mean` by the sample
standard deviation, the square root of `svarQ`; that square root is irrational
in general, so over the exact rational cell model the divisor used here is
`svarQ` itself, which has the same zero set and sign — the guarded
`std == 0` test and every property verified in this file are unaffected, and
no verified property depends on the zscore output magnitudes. -/
def zscoreCell (mean svar : ℚ) (c : Cell) : Cell :=
  match c with
  | some (.num q) => some (.num ((q - mean) / svar))
  | other => other

/-- `DataTransformer.normalize_column`. Mirrors the source exactly: an absent
column is a warning-only no-op (the method name is never examined); the
dispatch then raises for a method outside `minmax`/`zscore`. Within `minmax`,
pandas computes `min`/`max` first — on an all-equal string column the
degenerate guard fires before any arithmetic, otherwise string cells make the
subtraction (or a mixed-type `min`) raise a `TypeError`, modelled as
`.error`. An all-missing column keeps every cell `NaN`, i.e. is returned
unchanged. -/
def normalize_column (t : Table) (column : String) (method : String) :
    Except String Table :=
  match colIdx t.cols column with
  | none => .ok t
  | some i =>
    let cells := colCells t i
    if method = "minmax" then
      if hasStrCell cells then
        if hasNumCell cells then .error "TypeError: min on mixed types"
        else
          match (colStrs cells).min?, (colStrs cells).max? with
          | some mn, some mx =>
            if mx = mn then .ok (setColConst t i (some (.num 0)))
            else .error "TypeError: unsupported operand types for str"
          | _, _ => .ok t
      else
        match (colNums cells).min?, (colNums cells).max? with
        | some mn, some mx =>
          if mx = mn then .ok (setColConst t i (some (.num 0)))
          else .ok (mapCol t i (minmaxCell mn mx))
        | _, _ => .ok t
    else if method = "zscore" then
      if hasStrCell cells then .error "TypeError: mean on non-numeric data"
      else
        let nums := colNums cells
        if nums.length = 0 then .ok t
        else if nums.length = 1 then .ok (setColConst t i none)
        else if svarQ nums = 0 then .ok (setColConst t i (some (.num 0)))
        else .ok (mapCol t i (zscoreCell (meanQ nums) (svarQ nums)))
    else .error ("Método de normalização desconhecido: " ++ method)

/-- `DataTransformer.add_calculated_column`: `df[column_name] = df.apply(func,
axis=1)`; overwrites the column when the name already exists. -/
def add_calculated_column (t : Table) (column_name : String) (func : Row → Cell) :
    Table :=
  match colIdx t.cols column_name with
  | some i => { t with rows := t.rows.map (fun r => r.set i (func r)) }
  | none =>
    { cols := t.cols ++ [column_name],
      rows := t.rows.map (fun r => r ++ [func r]) }

/-- Insertion sort by a boolean `le`, used for the deterministic group-key
order (pandas sorts group keys). -/
def insertSorted {α : Type} (le : α → α → Bool) (x : α) : List α → List α
  | [] => [x]
  | y :: ys => if le x y then x :: y :: ys else y :: insertSorted le x ys

/-- Sort by a boolean `le`. -/
def sortBy {α : Type} (le : α → α → Bool) : List α → List α
  | [] => []
  | x :: xs => insertSorted le x (sortBy le xs)

/-- Order on group-key cells: missing first, numbers before strings (only
homogeneous keys reach a sort in practice; pandas drops missing keys). -/
def cellLe (a b : Cell) : Bool :=
  match a, b with
  | none, _ => true
  | some _, none => false
  | some (.num x), some (.num y) => x ≤ y
  | some (.num _), some (.str _) => true
  | some (.str _), some (.num _) => false
  | some (.str x), some (.str y) => x ≤ y

/-- Lexicographic order on group keys. -/
def keyLe : List Cell → List Cell → Bool
  | [], _ => true
  | _ :: _, [] => false
  | a :: as', b :: bs' =>
    if a = b then keyLe as' bs' else cellLe a b

/-- One aggregation function over the cells of a column within a group,
`none` on an unknown function name or an unsupported operand type (pandas
raises there). `count` counts non-missing cells; `sum` and `mean` skip
missing values. -/
def aggFn (fn : String) (cells : List Cell) : Option Cell :=
  if fn = "count" then some (some (.num ((presentVals cells).length : ℚ)))
  else if fn = "sum" then
    if hasStrCell cells then
      if hasNumCell cells then none
      else some (some (.str (String.join (colStrs cells))))
    else some (some (.num (colNums cells).sum))
  else if fn = "mean" then
    if hasStrCell cells then none
    else
      let nums := colNums cells
      if nums.length = 0 then some none
      else some (some (.num (meanQ nums)))
  else if fn = "min" then
    if hasStrCell cells then
      if hasNumCell cells then none
      else some (((colStrs cells).min?).map .str)
    else some (((colNums cells).min?).map .num)
  else if fn = "max" then
    if hasStrCell cells then
      if hasNumCell cells then none
      else some (((colStrs cells).max?).map .str)
    else some (((colNums cells).max?).map .num)
  else none

/-- `DataTransformer.aggregate_data`:
`df.groupby(group_by).agg(agg_func).reset_index()`. Rows whose key contains a
missing cell are dropped (pandas `dropna=True`); distinct keys are emitted in
sorted order; the output columns are the group columns followed by the
aggregated columns. Unknown columns, an empty `group_by`, or a failing
aggregation raise. -/
def aggregate_data (t : Table) (group_by : List String)
    (agg_func : List (String × String)) : Except String Table :=
  if group_by.isEmpty then .error "ValueError: No group keys passed"
  else if ¬ group_by.all (fun c => c ∈ t.cols) then .error "KeyError: group key"
  else if ¬ agg_func.all (fun p => p.1 ∈ t.cols) then .error "KeyError: agg column"
  else
    let key := dupKey t.cols (some group_by)
    let rowsKept := t.rows.filter (fun r => (key r).all (fun c => c.isSome))
    let keys := sortBy keyLe (dedupFirst id (rowsKept.map key))
    let outRow := fun (k : List Cell) =>
      let grp := rowsKept.filter (fun r => key r == k)
      (agg_func.mapM (fun (p : String × String) =>
        match colIdx t.cols p.1 with
        | some i => aggFn p.2 (grp.map (fun (r : Row) => r.getD i none))
        | none => none)).map (fun aggCells => k ++ aggCells)
    match keys.mapM outRow with
    | some rows => .ok { cols := group_by ++ agg_func.map Prod.fst, rows := rows }
    | none => .error "aggregation failed"

end DataTransformer

/-- Python runtime types relevant to the validator's `isinstance` checks. -/
inductive PyType where
  | int
  | float
  | str
  | bool
  | noneType
deriving DecidableEq, Repr

/-- Python scalar value as seen by the Validation Engine. -/
inductive PyVal where
  | int (n : ℤ)
  | float (q : ℚ)
  | str (s : String)
  | bool (b : Bool)
  | pynone
deriving DecidableEq, Repr

/-- Runtime type of a value. -/
def typeOf : PyVal → PyType
  | .int _ => .int
  | .float _ => .float
  | .str _ => .str
  | .bool _ => .bool
  | .pynone => .noneType

/-- `isinstance(value, ty)`; a Python `bool` is a subclass of `int`. -/
def isinstance : PyVal → PyType → Bool
  | .int _, .int => true
  | .bool _, .int => true
  | .bool _, .bool => true
  | .float _, .float => true
  | .str _, .str => true
  | _, _ => false

/-- Printed form of a type object, as it appears in error messages. -/
def pyTypeRepr : PyType → String
  | .int => "<class 'int'>"
  | .float => "<class 'float'>"
  | .str => "<class 'str'>"
  | .bool => "<class 'bool'>"
  | .noneType => "<class 'NoneType'>"

/-- Python `str(value)`. (The printed form of a float is approximated by the
rational's display; every float string fails the email and date validators in
the source just as here.) -/
def pyStr : PyVal → String
  | .str s => s
  | .int n => toString n
  | .bool b => if b then "True" else "False"
  | .pynone => "None"
  | .float q => toString q

namespace DataValidator

/-- Characters allowed in the local part of the email pattern
`[a-zA-Z0-9._%+-]`. -/
def emailLocalChar (c : Char) : Bool :=
  c.isAlphanum || c = '.' || c = '_' || c = '%' || c = '+' || c = '-'

/-- Characters allowed in the domain part of the email pattern
`[a-zA-Z0-9.-]`. -/
def emailDomainChar (c : Char) : Bool :=
  c.isAlphanum || c = '.' || c = '-'

/-- `DataValidator.validate_email`: full match against
`[local]+@[domain]+\.[alpha]{2,}` anchored at both ends. Since the local
class excludes `@` and the top-level class is alphabetic only, the split is
forced at the single `@` and at the last dot after it. Non-strings are
invalid. -/
def validate_email (v : PyVal) : Bool :=
  match v with
  | .str s =>
    match s.splitOn "@" with
    | [lp, dom] =>
      let parts := dom.splitOn "."
      match parts.getLast? with
      | some tld =>
        let domain := String.intercalate "." parts.dropLast
        decide (0 < lp.length) && lp.toList.all emailLocalChar &&
        decide (2 ≤ parts.length) &&
        decide (0 < domain.length) && domain.toList.all emailDomainChar &&
        decide (2 ≤ tld.length) && tld.toList.all Char.isAlpha
      | none => false
    | _ => false
  | _ => false

/-- Character class `[\d\s\-\+\(\)]` of the phone pattern. -/
def phoneChar (c : Char) : Bool :=
  c.isDigit || c.isWhitespace || c = '-' || c = '+' || c = '(' || c = ')'

/-- `DataValidator.validate_phone`: at least ten characters, all from the
phone class; non-strings are invalid. -/
def validate_phone (v : PyVal) : Bool :=
  match v with
  | .str s => decide (10 ≤ s.length) && s.toList.all phoneChar
  | _ => false

/-- Python `float(value)` as used by `validate_numeric`: numbers and bools
convert, strings are parsed, `None` and parse failures raise (modelled as
`none`). -/
def pyFloat? : PyVal → Option ℚ
  | .int n => some (n : ℚ)
  | .float q => some q
  | .bool b => some (if b then 1 else 0)
  | .str s => parseFloat? s
  | .pynone => none

/-- `DataValidator.validate_numeric`: numeric parse with inclusive bounds,
failing closed on a parse error. -/
def validate_numeric (v : PyVal) (min? max? : Option ℚ) : Bool :=
  match pyFloat? v with
  | none => false
  | some q =>
    (match min? with
     | some m => decide (m ≤ q)
     | none => true) &&
    (match max? with
     | some m => decide (q ≤ m)
     | none => true)

/-- Fields recognised while parsing a date, with `strptime`'s defaults. -/
structure DateParts where
  year : ℕ := 1900
  month : ℕ := 1
  day : ℕ := 1
deriving Repr, DecidableEq

/-- Two-digit-first numeric directive match with a range check, falling back
to one digit (the shape of the alternations in CPython's `_strptime`
patterns, e.g. `1[0-2]|0[1-9]|[1-9]` for `%m`). -/
def matchNum12 (lo hi : ℕ) (cs : List Char) : Option (ℕ × List Char) :=
  match cs with
  | c1 :: c2 :: rest =>
    if c1.isDigit && c2.isDigit &&
        decide (lo ≤ (c1.toNat - 48) * 10 + (c2.toNat - 48)) &&
        decide ((c1.toNat - 48) * 10 + (c2.toNat - 48) ≤ hi) then
      some ((c1.toNat - 48) * 10 + (c2.toNat - 48), rest)
    else if c1.isDigit && decide (lo ≤ c1.toNat - 48) && decide (c1.toNat - 48 ≤ hi) then
      some (c1.toNat - 48, c2 :: rest)
    else none
  | [c1] =>
    if c1.isDigit && decide (lo ≤ c1.toNat - 48) && decide (c1.toNat - 48 ≤ hi) then
      some (c1.toNat - 48, [])
    else none
  | [] => none

/-- Exactly four digits (`%Y`). -/
def matchNum4 (cs : List Char) : Option (ℕ × List Char) :=
  match cs with
  | a :: b :: c :: d :: rest =>
    if a.isDigit && b.isDigit && c.isDigit && d.isDigit then
      some (digitsVal [a, b, c, d], rest)
    else none
  | _ => none

/-- Gregorian leap year. -/
def isLeap (y : ℕ) : Bool :=
  y % 4 = 0 && (y % 100 ≠ 0 || y % 400 = 0)

/-- Days in a month. -/
def daysInMonth (y m : ℕ) : ℕ :=
  if m = 2 then (if isLeap y then 29 else 28)
  else if m = 4 ∨ m = 6 ∨ m = 9 ∨ m = 11 then 30
  else 31

/-- Core of the `strptime` model: consume the format, matching directives
`%Y`, `%m`, `%d`, `%H`, `%M`, `%S`, `%%` and literal characters. Any other
directive, a mismatch, or unconsumed input fails — exactly the cases where
`strptime` raises `ValueError`, which `validate_date` turns into `False`. -/
def strptimeAux (d : DateParts) : List Char → List Char → Option DateParts
  | [], cs => if cs.isEmpty then some d else none
  | ['%'], _ => none
  | '%' :: dir :: fmt, cs =>
    if dir = 'Y' then
      (matchNum4 cs).bind (fun p => strptimeAux { d with year := p.1 } fmt p.2)
    else if dir = 'm' then
      (matchNum12 1 12 cs).bind (fun p => strptimeAux { d with month := p.1 } fmt p.2)
    else if dir = 'd' then
      (matchNum12 1 31 cs).bind (fun p => strptimeAux { d with day := p.1 } fmt p.2)
    else if dir = 'H' then
      (matchNum12 0 23 cs).bind (fun p => strptimeAux d fmt p.2)
    else if dir = 'M' ∨ dir = 'S' then
      (matchNum12 0 59 cs).bind (fun p => strptimeAux d fmt p.2)
    else if dir = '%' then
      match cs with
      | '%' :: cs' => strptimeAux d fmt cs'
      | _ => none
    else none
  | f :: fmt, c :: cs => if f = c then strptimeAux d fmt cs else none
  | _ :: _, [] => none

/-- Model of `datetime.strptime(s, fmt)` restricted to the date directives
this repository uses; the final check is the `datetime` constructor's
validity test (year at least 1, day within the month). -/
def strptime? (s fmt : String) : Option DateParts :=
  (strptimeAux {} fmt.toList s.toList).bind (fun d =>
    if 1 ≤ d.year ∧ 1 ≤ d.day ∧ d.day ≤ daysInMonth d.year d.month then some d
    else none)

/-- `DataValidator.validate_date`: strict parse against the format;
non-strings are invalid. -/
def validate_date (v : PyVal) (fmt : String) : Bool :=
  match v with
  | .str s => (strptime? s fmt).isSome
  | _ => false

/-- `DataValidator.validate_string_length`: inclusive bounds; non-strings are
invalid. -/
def validate_string_length (v : PyVal) (min_length : ℕ) (max_length : Option ℕ) :
    Bool :=
  match v with
  | .str s =>
    decide (min_length ≤ s.length) &&
    (match max_length with
     | some m => decide (s.length ≤ m)
     | none => true)
  | _ => false

/-- `DataValidator.validate_in_list`: exact membership, no coercion. -/
def validate_in_list (v : PyVal) (allowed : List PyVal) : Bool :=
  v ∈ allowed

/-- Rule set for one schema field (`{type?, email?, numeric?(min?, max?),
date?(date_format?)}`). -/
structure Rules where
  type? : Option PyType := Option.none
  email : Bool := false
  numeric : Bool := false
  min? : Option ℚ := Option.none
  max? : Option ℚ := Option.none
  date : Bool := false
  date_format : String := "%Y-%m-%d"

/-- Per-row validation outcome. -/
structure ValidationResult where
  is_valid : Bool
  errors : List String
  warnings : List String
deriving Repr, DecidableEq

/-- Error messages contributed by one present field, in the source's rule
order: type, then email, then numeric, then date (no short-circuiting). -/
def fieldErrors (field : String) (rules : Rules) (value : PyVal) : List String :=
  (match rules.type? with
   | some ty =>
     if isinstance value ty then []
     else ["Campo " ++ field ++ ": tipo esperado " ++ pyTypeRepr ty ++
           ", recebido " ++ pyTypeRepr (typeOf value)]
   | none => []) ++
  (if rules.email && ! validate_email (.str (pyStr value)) then
    ["Campo " ++ field ++ ": email inválido"]
   else []) ++
  (if rules.numeric && ! validate_numeric value rules.min? rules.max? then
    ["Campo " ++ field ++ ": valor numérico inválido"]
   else []) ++
  (if rules.date && ! validate_date (.str (pyStr value)) rules.date_format then
    ["Campo " ++ field ++ ": data inválida (formato esperado: " ++
     rules.date_format ++ ")"]
   else [])

/-- `DataValidator.validate_row`: walk the schema in order; an absent field
contributes a hard error, a present one its accumulated rule errors; the row
is valid exactly when no error accumulated. `warnings` is populated with the
empty list and never appended to. -/
def validate_row (row : List (String × PyVal)) (schema : List (String × Rules)) :
    ValidationResult :=
  let errors := schema.flatMap (fun fr =>
    match row.lookup fr.1 with
    | none => ["Campo obrigatório ausente: " ++ fr.1]
    | some v => fieldErrors fr.1 fr.2 v)
  { is_valid := errors.isEmpty, errors := errors, warnings := [] }

end DataValidator

/-- `PipelineStats` record of `etl/pipeline.py`, with its field defaults.
Counters are naturals: each is assigned `initial_count - len(df)` where the
transformation can only remove rows, so the Python value is never negative
and agrees with truncated subtraction. -/
structure PipelineStats where
  total_records : ℕ := 0
  valid_records : ℕ := 0
  invalid_records : ℕ := 0
  duplicates_removed : ℕ := 0
  missing_values_handled : ℕ := 0
  transformations_applied : ℕ := 0
  execution_time : ℚ := 0
  start_time : String := ""
  end_time : String := ""
  status : String := "pending"
deriving Repr, DecidableEq

/-- Mutable state of one `ETLPipeline` instance: the current table (`self.df`,
`None` before a successful extract) and the stats record. -/
structure PState where
  df : Option Table := Option.none
  stats : PipelineStats := {}
deriving Repr, DecidableEq

/-- Freshly constructed pipeline. -/
def initState : PState := {}

/-- One Orchestrator method call with its arguments. `extract` carries the
table produced by the external TableCodec; `run` and `finish` carry the
wall-clock readings the source takes from `datetime.now()`. -/
inductive Method where
  | extract (t : Table)
  | remove_duplicates (subset : Option (List String)) (keep : DataTransformer.Keep)
  | handle_missing_values (strategy : String) (fill_value : Val)
  | rename_columns (mapping : List (String × String))
  | select_columns (columns : List String)
  | filter_rows (condition : Row → Bool)
  | convert_types (dtype_mapping : List (String × String))
  | normalize_column (column : String) (method : String)
  | add_column (column_name : String) (func : Row → Cell)
  | aggregate (group_by : List String) (agg_func : List (String × String))
  | load
  | run (start_time : String)
  | finish (execution_time : Option ℚ) (end_time : String)

/-- The precondition error message raised by every transformation and load
method when `self.df is None`. -/
def precondErr : String := "Nenhum dado para processar. Execute extract() primeiro."

/-- Shared success path of the transformation methods: install the new table
and increment `transformations_applied`, plus a method-specific stats update. -/
def applyOk (s : PState) (t : Table) (upd : PipelineStats → PipelineStats) : PState :=
  { df := some t,
    stats :=
      let st := upd s.stats
      { st with transformations_applied := st.transformations_applied + 1 } }

/-- One Orchestrator method call. The result pairs the pipeline state after
the call with `some msg` when the call raised `msg` (the exception propagates
to the caller). A raising call leaves the state at its pre-call value, as in
the source: every exception is thrown before `self.df` or `self.stats` is
assigned. -/
def step (s : PState) (m : Method) : PState × Option String :=
  match m with
  | .extract t =>
    ({ s with df := some t,
              stats := { s.stats with total_records := t.rows.length } }, none)
  | .remove_duplicates subset keep =>
    match s.df with
    | none => (s, some precondErr)
    | some df =>
      match DataTransformer.remove_duplicates df subset keep with
      | .error e => (s, some e)
      | .ok df2 =>
        (applyOk s df2 (fun st =>
          { st with duplicates_removed := df.rows.length - df2.rows.length }), none)
  | .handle_missing_values strategy fill_value =>
    match s.df with
    | none => (s, some precondErr)
    | some df =>
      match DataTransformer.handle_missing_values df strategy fill_value with
      | .error e => (s, some e)
      | .ok df2 =>
        (applyOk s df2 (fun st =>
          { st with missing_values_handled := df.rows.length - df2.rows.length }), none)
  | .rename_columns mapping =>
    match s.df with
    | none => (s, some precondErr)
    | some df => (applyOk s (DataTransformer.rename_columns df mapping) id, none)
  | .select_columns columns =>
    match s.df with
    | none => (s, some precondErr)
    | some df => (applyOk s (DataTransformer.select_columns df columns) id, none)
  | .filter_rows condition =>
    match s.df with
    | none => (s, some precondErr)
    | some df => (applyOk s (DataTransformer.filter_rows df condition) id, none)
  | .convert_types dtype_mapping =>
    match s.df with
    | none => (s, some precondErr)
    | some df => (applyOk s (DataTransformer.convert_data_types df dtype_mapping) id, none)
  | .normalize_column column method =>
    match s.df with
    | none => (s, some precondErr)
    | some df =>
      match DataTransformer.normalize_column df column method with
      | .error e => (s, some e)
      | .ok df2 => (applyOk s df2 id, none)
  | .add_column column_name func =>
    match s.df with
    | none => (s, some precondErr)
    | some df => (applyOk s (DataTransformer.add_calculated_column df column_name func) id, none)
  | .aggregate group_by agg_func =>
    match s.df with
    | none => (s, some precondErr)
    | some df =>
      match DataTransformer.aggregate_data df group_by agg_func with
      | .error e => (s, some e)
      | .ok df2 => (applyOk s df2 id, none)
  | .load =>
    match s.df with
    | none => (s, some precondErr)
    | some _ => (s, none)
  | .run start_time =>
    ({ s with stats := { s.stats with start_time := start_time,
                                      status := "running" } }, none)
  | .finish execution_time end_time =>
    ({ s with stats :=
        let st := { s.stats with end_time := end_time, status := "completed" }
        match execution_time with
        | some et => { st with execution_time := et }
        | none => st }, none)

/-- True for the nine transformation methods (the ones that delegate to the
Transformation Engine and bump `transformations_applied`). -/
def Method.isTransform : Method → Bool
  | .remove_duplicates _ _ => true
  | .handle_missing_values _ _ => true
  | .rename_columns _ => true
  | .select_columns _ => true
  | .filter_rows _ => true
  | .convert_types _ => true
  | .normalize_column _ _ => true
  | .add_column _ _ => true
  | .aggregate _ _ => true
  | _ => false

/-- True for the methods that require a table to be present: the nine
transformations and `load`. -/
def Method.needsTable : Method → Bool
  | .load => true
  | m => m.isTransform

/-- Pipeline states reached after each call of a sequence, starting from
`s` (an exception is caught by the caller, who continues with the state the
failed call left behind). -/
def statesFrom (s : PState) : List Method → List PState
  | [] => []
  | m :: ms =>
    let s2 := (step s m).1
    s2 :: statesFrom s2 ms

/-- Status trace of a call sequence from the fresh pipeline: the initial
status followed by the status after each call. -/
def statusTrace (ms : List Method) : List String :=
  "pending" :: (statesFrom initState ms).map (fun s => s.stats.status)

/-- Status transition permitted by the spec sentence "transitions only
pending→running→completed, with failed reachable from running" (staying put
is always permitted). This is the spec-side relation; the code-side behavior
is `step`. -/
def specStatusStep (a b : String) : Prop :=
  a = b ∨ (a = "pending" ∧ b = "running") ∨ (a = "running" ∧ b = "completed") ∨
    (a = "running" ∧ b = "failed")

instance (a b : String) : Decidable (specStatusStep a b) := by
  unfold specStatusStep; infer_instance

/-- Example table of spec Scenario B: one numeric column `age = [10, 20, 30]`. -/
def ageTable : Table :=
  { cols := ["age"],
    rows := [[some (.num 10)], [some (.num 20)], [some (.num 30)]] }

/-- Example table with two columns, two rows and exactly one missing cell. -/
def missTable : Table :=
  { cols := ["a", "b"],
    rows := [[some (.num 1), none], [some (.num 2), some (.num 3)]] }

/-- Example table with one duplicated row. -/
def dupTable : Table :=
  { cols := ["id", "age"],
    rows := [[some (.num 1), some (.num 10)],
             [some (.num 1), some (.num 10)],
             [some (.num 2), some (.num 20)]] }

/-- The example table after first-wins deduplication on all columns. -/
def dupTableDeduped : Table :=
  { cols := ["id", "age"],
    rows := [[some (.num 1), some (.num 10)],
             [some (.num 2), some (.num 20)]] }

/-- Scenario B expected output: `age` minmax-normalized to `[0, 0.5, 1]`. -/
def ageTableNorm : Table :=
  { cols := ["age"],
    rows := [[some (.num 0)], [some (.num (1 / 2))], [some (.num 1)]] }

end ETL

namespace ETL

/-! Helper lemmas shared by the claim theorems. -/

theorem min?_le_of_mem {α : Type} [LinearOrder α] :
    ∀ {l : List α} {a x : α}, l.min? = some a → x ∈ l → a ≤ x := by
  intro l
  induction l with
  | nil => intro a x h; cases h
  | cons y ys ih =>
    intro a x h hx
    rw [List.min?_cons] at h
    cases hys : ys.min? with
    | none =>
      rw [hys] at h
      simp only [Option.elim] at h
      rw [List.min?_eq_none_iff] at hys
      subst hys
      rcases List.mem_singleton.mp hx with rfl
      simp at h
      exact le_of_eq h.symm
    | some m =>
      rw [hys] at h
      simp only [Option.elim, Option.some.injEq] at h
      subst h
      rcases List.mem_cons.mp hx with rfl | hmem
      · exact min_le_left _ _
      · exact le_trans (min_le_right _ _) (ih hys hmem)

theorem le_max?_of_mem {α : Type} [LinearOrder α] :
    ∀ {l : List α} {a x : α}, l.max? = some a → x ∈ l → x ≤ a := by
  intro l
  induction l with
  | nil => intro a x h; cases h
  | cons y ys ih =>
    intro a x h hx
    rw [List.max?_cons] at h
    cases hys : ys.max? with
    | none =>
      rw [hys] at h
      simp only [Option.elim] at h
      rw [List.max?_eq_none_iff] at hys
      subst hys
      rcases List.mem_singleton.mp hx with rfl
      simp at h
      exact le_of_eq h
    | some m =>
      rw [hys] at h
      simp only [Option.elim, Option.some.injEq] at h
      subst h
      rcases List.mem_cons.mp hx with rfl | hmem
      · exact le_max_left _ _
      · exact le_trans (ih hys hmem) (le_max_right _ _)

/-- C1 helper: the success path of every transformation method goes through
`applyOk`. -/
theorem applyOk_transformations_applied (s : PState) (t : Table)
    (upd : PipelineStats → PipelineStats)
    (h : ∀ st, (upd st).transformations_applied = st.transformations_applied) :
    (applyOk s t upd).stats.transformations_applied =
      s.stats.transformations_applied + 1 := by
  simp [applyOk, h]

/-- C1: every successful transformation call increments
`stats.transformations_applied` by exactly 1, whatever the method did to the
rows. -/
theorem transform_increments_applied_by_one (s : PState) (m : Method)
    (ht : m.isTransform = true) (hok : (step s m).2 = Option.none) :
    (step s m).1.stats.transformations_applied =
      s.stats.transformations_applied + 1 := by
  cases m <;>
    simp only [Method.isTransform, Bool.false_eq_true] at ht <;>
    cases hdf : s.df <;>
    simp only [step, hdf] at hok ⊢ <;>
    first
      | (split at hok <;> simp_all [applyOk])
      | simp_all [applyOk]

/-- C1 witness: a concrete successful transformation call. -/
theorem transform_increments_applied_by_one_witness :
    (step { df := some ageTable } (Method.select_columns ["age"])).1.stats.transformations_applied =
      ({} : PipelineStats).transformations_applied + 1 :=
  transform_increments_applied_by_one { df := some ageTable }
    (Method.select_columns ["age"]) rfl rfl

/-- C2: with no table established, every transformation or load method raises
the precondition error and leaves the state unchanged; only `extract` can
turn an absent table into a present one. -/
theorem no_table_precondition_and_only_extract_establishes :
    (∀ (s : PState) (m : Method), s.df = Option.none → m.needsTable = true →
        step s m = (s, some precondErr)) ∧
    (∀ (s : PState) (m : Method), s.df = Option.none →
        ((step s m).1.df).isSome = true → ∃ t, m = Method.extract t) := by
  constructor
  · intro s m hdf ht
    cases m <;>
      simp only [Method.needsTable, Method.isTransform, Bool.false_eq_true] at ht <;>
      simp [step, hdf]
  · intro s m hdf hsome
    cases m with
    | extract t => exact ⟨t, rfl⟩
    | _ => simp [step, hdf] at hsome

theorem colIdx_ne_none_of_mem {cols : List String} {c : String} (h : c ∈ cols) :
    colIdx cols c ≠ Option.none := by
  intro hn
  rw [colIdx, List.findIdx?_eq_none_iff] at hn
  exact absurd (hn c h) (by simp)

theorem colIdx_eq_none_of_not_mem {cols : List String} {c : String} (h : c ∉ cols) :
    colIdx cols c = Option.none := by
  rw [colIdx, List.findIdx?_eq_none_iff]
  intro x hx
  simp only [beq_eq_false_iff_ne]
  rintro rfl
  exact h hx

/-- Shared: with at least one missing cell present, an unknown strategy makes
`handle_missing_values` raise. -/
theorem handle_missing_unknown_strategy (t : Table) (strategy : String) (fv : Val)
    (hmc : missingCount t ≠ 0) (hs : strategy ∉ DataTransformer.validStrategies) :
    DataTransformer.handle_missing_values t strategy fv =
      Except.error ("Estratégia desconhecida: " ++ strategy) := by
  simp only [DataTransformer.validStrategies, List.mem_cons, List.not_mem_nil,
    or_false, not_or] at hs
  obtain ⟨h1, h2, h3, h4⟩ := hs
  simp [DataTransformer.handle_missing_values, hmc, h1, h2, h3, h4]

/-- Shared: with no missing cell, `handle_missing_values` returns the table
unchanged before the strategy name is ever examined. -/
theorem handle_missing_noop_of_no_missing (t : Table) (strategy : String) (fv : Val)
    (hmc : missingCount t = 0) :
    DataTransformer.handle_missing_values t strategy fv = Except.ok t := by
  simp [DataTransformer.handle_missing_values, hmc]

/-- Shared: a present column and a method outside `minmax`/`zscore` make
`normalize_column` raise. -/
theorem normalize_unknown_method (t : Table) (column method : String)
    (hc : column ∈ t.cols) (h1 : method ≠ "minmax") (h2 : method ≠ "zscore") :
    DataTransformer.normalize_column t column method =
      Except.error ("Método de normalização desconhecido: " ++ method) := by
  cases hci : colIdx t.cols column with
  | none => exact absurd hci (colIdx_ne_none_of_mem hc)
  | some i => simp [DataTransformer.normalize_column, hci, h1, h2]

/-- Shared: an absent column makes `normalize_column` a silent no-op, for any
method string. -/
theorem normalize_absent_column_noop (t : Table) (column method : String)
    (hc : column ∉ t.cols) :
    DataTransformer.normalize_column t column method = Except.ok t := by
  simp [DataTransformer.normalize_column, colIdx_eq_none_of_not_mem hc]

/-- C3 counterexample: `normalize_column` on an absent column returns the
table unchanged (no error is raised), and `handle_missing_values` with an
unknown strategy returns a missing-free table unchanged (no error either) —
both contradict the claim that every such malformed call raises. -/
theorem malformed_argument_silent_paths :
    ("idade" ∈ ageTable.cols → False) ∧
    DataTransformer.normalize_column ageTable "idade" "minmax" = Except.ok ageTable ∧
    ("bogus" ∈ DataTransformer.validStrategies → False) ∧
    missingCount ageTable = 0 ∧
    DataTransformer.handle_missing_values ageTable "bogus" (.num 0) =
      Except.ok ageTable := by
  refine ⟨by decide, ?_, by decide, by decide, ?_⟩
  · exact normalize_absent_column_noop _ _ _ (by decide)
  · exact handle_missing_noop_of_no_missing _ _ _ (by decide)

/-- C3 as amended: an unknown strategy raises provided at least one missing
cell exists (otherwise the call returns the table unchanged before
validating the strategy); an unknown normalization method raises provided
the column is present; an absent normalization column is a warning-only
no-op for any method. -/
theorem malformed_argument_failure_semantics :
    (∀ (t : Table) (strategy : String) (fv : Val),
        missingCount t ≠ 0 → strategy ∉ DataTransformer.validStrategies →
        DataTransformer.handle_missing_values t strategy fv =
          Except.error ("Estratégia desconhecida: " ++ strategy)) ∧
    (∀ (t : Table) (strategy : String) (fv : Val), missingCount t = 0 →
        DataTransformer.handle_missing_values t strategy fv = Except.ok t) ∧
    (∀ (t : Table) (column method : String), column ∈ t.cols →
        method ≠ "minmax" → method ≠ "zscore" →
        DataTransformer.normalize_column t column method =
          Except.error ("Método de normalização desconhecido: " ++ method)) ∧
    (∀ (t : Table) (column method : String), column ∉ t.cols →
        DataTransformer.normalize_column t column method = Except.ok t) :=
  ⟨handle_missing_unknown_strategy, handle_missing_noop_of_no_missing,
   normalize_unknown_method, normalize_absent_column_noop⟩

/-- C3 witness: the amended failure semantics at concrete inputs. -/
theorem malformed_argument_failure_semantics_witness :
    DataTransformer.handle_missing_values missTable "bogus" (.num 0) =
      Except.error ("Estratégia desconhecida: " ++ "bogus") ∧
    DataTransformer.normalize_column ageTable "age" "bogus" =
      Except.error ("Método de normalização desconhecido: " ++ "bogus") :=
  ⟨malformed_argument_failure_semantics.1 missTable "bogus" (.num 0)
     (by decide) (by decide),
   malformed_argument_failure_semantics.2.2.1 ageTable "age" "bogus"
     (by decide) (by decide) (by decide)⟩

/-- C9: a call that raises leaves the whole pipeline state — table and
stats — at its pre-call value, so the caller may retry: this holds
universally for every method and every raised error, every error of the four
fallible transformer operations propagates with the state preserved, and the
concrete bad-argument families — absent duplicate-subset column, unknown
missing-value strategy (with missing data present), unknown normalization
method (on a present column), and malformed aggregation arguments (empty or
unknown group columns, unknown aggregation columns) — each raise with the
state preserved. -/
theorem bad_argument_raises_and_preserves_state :
    (∀ (s : PState) (m : Method) (e : String),
        (step s m).2 = some e → (step s m).1 = s) ∧
    (∀ (s : PState) (df : Table), s.df = some df →
      (∀ (subset : Option (List String)) (keep : DataTransformer.Keep) (e : String),
          DataTransformer.remove_duplicates df subset keep = Except.error e →
          step s (.remove_duplicates subset keep) = (s, some e)) ∧
      (∀ (strategy : String) (fv : Val) (e : String),
          DataTransformer.handle_missing_values df strategy fv = Except.error e →
          step s (.handle_missing_values strategy fv) = (s, some e)) ∧
      (∀ (column method : String) (e : String),
          DataTransformer.normalize_column df column method = Except.error e →
          step s (.normalize_column column method) = (s, some e)) ∧
      (∀ (group_by : List String) (agg_func : List (String × String)) (e : String),
          DataTransformer.aggregate_data df group_by agg_func = Except.error e →
          step s (.aggregate group_by agg_func) = (s, some e))) ∧
    (∀ (s : PState) (df : Table), s.df = some df →
      (∀ (sub : List String) (keep : DataTransformer.Keep),
          DataTransformer.subsetValid df.cols (some sub) = false →
          step s (.remove_duplicates (some sub) keep) =
            (s, some "KeyError: subset")) ∧
      (∀ (strategy : String) (fv : Val),
          missingCount df ≠ 0 → strategy ∉ DataTransformer.validStrategies →
          step s (.handle_missing_values strategy fv) =
            (s, some ("Estratégia desconhecida: " ++ strategy))) ∧
      (∀ (column method : String),
          column ∈ df.cols → method ≠ "minmax" → method ≠ "zscore" →
          step s (.normalize_column column method) =
            (s, some ("Método de normalização desconhecido: " ++ method))) ∧
      (∀ (group_by : List String) (agg_func : List (String × String)),
          group_by.isEmpty = true ∨
            group_by.all (fun c => c ∈ df.cols) = false ∨
            agg_func.all (fun p => p.1 ∈ df.cols) = false →
          ∃ e, step s (.aggregate group_by agg_func) = (s, some e))) := by
  refine ⟨?_, ?_, ?_⟩
  · intro s m e herr
    cases m <;> cases hdf : s.df <;>
      simp only [step, hdf] at herr ⊢ <;>
      first
        | rfl
        | simp at herr
        | (split at herr <;> simp_all)
  · intro s df hdf
    refine ⟨?_, ?_, ?_, ?_⟩
    · intro subset keep e herr
      simp [step, hdf, herr]
    · intro strategy fv e herr
      simp [step, hdf, herr]
    · intro column method e herr
      simp [step, hdf, herr]
    · intro group_by agg_func e herr
      simp [step, hdf, herr]
  · intro s df hdf
    refine ⟨?_, ?_, ?_, ?_⟩
    · intro sub keep hval
      have herr : DataTransformer.remove_duplicates df (some sub) keep =
          Except.error "KeyError: subset" := by
        simp [DataTransformer.remove_duplicates, hval]
      simp [step, hdf, herr]
    · intro strategy fv hmc hs
      simp [step, hdf, handle_missing_unknown_strategy df strategy fv hmc hs]
    · intro column method hc h1 h2
      simp [step, hdf, normalize_unknown_method df column method hc h1 h2]
    · intro group_by agg_func hbad
      have herr : ∃ e, DataTransformer.aggregate_data df group_by agg_func =
          Except.error e := by
        rcases hbad with h1 | h2 | h3
        · exact ⟨"ValueError: No group keys passed",
            by simp [DataTransformer.aggregate_data, h1]⟩
        · by_cases h1 : group_by.isEmpty
          · exact ⟨"ValueError: No group keys passed",
              by simp [DataTransformer.aggregate_data, h1]⟩
          · exact ⟨"KeyError: group key",
              by simp [DataTransformer.aggregate_data, h1, h2]⟩
        · by_cases h1 : group_by.isEmpty
          · exact ⟨"ValueError: No group keys passed",
              by simp [DataTransformer.aggregate_data, h1]⟩
          · by_cases h2 : group_by.all (fun c => c ∈ df.cols)
            · exact ⟨"KeyError: agg column",
                by simp [DataTransformer.aggregate_data, h1, h2, h3]⟩
            · exact ⟨"KeyError: group key",
                by simp [DataTransformer.aggregate_data, h1, h2]⟩
      obtain ⟨e, herr⟩ := herr
      exact ⟨e, by simp [step, hdf, herr]⟩

/-- C9 witness: concrete bad-argument calls of each family raising while the
state is preserved. -/
theorem bad_argument_raises_and_preserves_state_witness :
    (step { df := some missTable } (.handle_missing_values "bogus" (.num 0))).1 =
      { df := some missTable } ∧
    step { df := some missTable } (.handle_missing_values "bogus" (.num 0)) =
      ({ df := some missTable }, some ("Estratégia desconhecida: " ++ "bogus")) ∧
    step { df := some ageTable } (.remove_duplicates (some ["nope"]) .first) =
      ({ df := some ageTable }, some "KeyError: subset") ∧
    ∃ e, step { df := some ageTable } (.aggregate [] [("age", "mean")]) =
      ({ df := some ageTable }, some e) :=
  ⟨bad_argument_raises_and_preserves_state.1 { df := some missTable }
     (.handle_missing_values "bogus" (.num 0))
     ("Estratégia desconhecida: " ++ "bogus") (by rfl),
   (bad_argument_raises_and_preserves_state.2.2 { df := some missTable }
     missTable rfl).2.1 "bogus" (.num 0) (by decide) (by decide),
   (bad_argument_raises_and_preserves_state.2.2 { df := some ageTable }
     ageTable rfl).1 ["nope"] .first (by decide),
   (bad_argument_raises_and_preserves_state.2.2 { df := some ageTable }
     ageTable rfl).2.2.2 [] [("age", "mean")] (Or.inl rfl)⟩

/-- C2 witness: a concrete `load` on a fresh pipeline raises the precondition
error, and a concrete `extract` establishes the table. -/
theorem no_table_precondition_witness :
    step initState Method.load = (initState, some precondErr) ∧
    ∃ t, Method.extract ageTable = Method.extract t :=
  ⟨no_table_precondition_and_only_extract_establishes.1 initState Method.load rfl rfl,
   no_table_precondition_and_only_extract_establishes.2
     { df := Option.none, stats := (step initState (Method.extract ageTable)).1.stats }
     (Method.extract ageTable) rfl (by decide)⟩

/-- C4 counterexample: on a table with exactly one missing cell, a successful
`fill` call records 0 — the rows-removed delta — in
`stats.missing_values_handled`, not the missing-cell count 1 the claim
promises. -/
theorem fill_records_zero_not_missing_cells :
    missingCount missTable = 1 ∧
    (step { df := some missTable } (.handle_missing_values "fill" (.num 0))).2 =
      Option.none ∧
    (step { df := some missTable }
        (.handle_missing_values "fill" (.num 0))).1.stats.missing_values_handled = 0 ∧
    (0 : ℕ) ≠ 1 := by
  decide

/-- C4 as amended: the Orchestrator records the rows-removed delta
`initial_count - len(df)` in `stats.missing_values_handled` (0 for the three
length-preserving strategies), not the missing-cell count, which the
transformer only logs; a table without missing cells is returned unchanged
and the recorded count is 0. -/
theorem handle_missing_counter_is_rows_dropped :
    (∀ (s : PState) (df df2 : Table) (strategy : String) (fv : Val),
        s.df = some df →
        DataTransformer.handle_missing_values df strategy fv = Except.ok df2 →
        (step s (.handle_missing_values strategy fv)).2 = Option.none ∧
        (step s (.handle_missing_values strategy fv)).1.df = some df2 ∧
        (step s (.handle_missing_values strategy fv)).1.stats.missing_values_handled =
          df.rows.length - df2.rows.length) ∧
    (∀ (s : PState) (df : Table) (strategy : String) (fv : Val),
        s.df = some df → missingCount df = 0 →
        (step s (.handle_missing_values strategy fv)).1.df = some df ∧
        (step s (.handle_missing_values strategy fv)).1.stats.missing_values_handled
          = 0) := by
  constructor
  · intro s df df2 strategy fv hdf hok
    simp [step, hdf, hok, applyOk]
  · intro s df strategy fv hdf hmc
    have hok := handle_missing_noop_of_no_missing df strategy fv hmc
    simp [step, hdf, hok, applyOk]

/-- C4 witness: the amended behavior at a concrete input (`drop` on a table
with one missing cell removes one row and records 1). -/
theorem handle_missing_counter_is_rows_dropped_witness :
    (step { df := some missTable } (.handle_missing_values "drop" (.num 0))).2 =
      Option.none ∧
    (step { df := some missTable } (.handle_missing_values "drop" (.num 0))).1.df =
      some (DataTransformer.dropna missTable) ∧
    (step { df := some missTable }
        (.handle_missing_values "drop" (.num 0))).1.stats.missing_values_handled =
      missTable.rows.length - (DataTransformer.dropna missTable).rows.length :=
  handle_missing_counter_is_rows_dropped.1 { df := some missTable } missTable
    (DataTransformer.dropna missTable) "drop" (.num 0) rfl (by rfl)

/-- C10: the `duplicates_removed` and `missing_values_handled` counters are
assigned, not accumulated: after any successful call the counter equals that
call's own rows-delta whatever its previous value, so after two successful
calls it reflects the second call only. -/
theorem dedup_and_missing_counters_overwritten :
    (∀ (s : PState) (subset : Option (List String)) (keep : DataTransformer.Keep)
        (df df2 : Table),
        s.df = some df →
        DataTransformer.remove_duplicates df subset keep = Except.ok df2 →
        (step s (.remove_duplicates subset keep)).1.stats.duplicates_removed =
          df.rows.length - df2.rows.length) ∧
    (∀ (s : PState) (strategy : String) (fv : Val) (df df2 : Table),
        s.df = some df →
        DataTransformer.handle_missing_values df strategy fv = Except.ok df2 →
        (step s (.handle_missing_values strategy fv)).1.stats.missing_values_handled =
          df.rows.length - df2.rows.length) ∧
    (∀ (s : PState) (sub1 sub2 : Option (List String))
        (k1 k2 : DataTransformer.Keep) (df1 df2 : Table),
        (step s (.remove_duplicates sub1 k1)).1.df = some df1 →
        DataTransformer.remove_duplicates df1 sub2 k2 = Except.ok df2 →
        (step (step s (.remove_duplicates sub1 k1)).1
            (.remove_duplicates sub2 k2)).1.stats.duplicates_removed =
          df1.rows.length - df2.rows.length) := by
  have h1 : ∀ (s : PState) (subset : Option (List String))
      (keep : DataTransformer.Keep) (df df2 : Table),
      s.df = some df →
      DataTransformer.remove_duplicates df subset keep = Except.ok df2 →
      (step s (.remove_duplicates subset keep)).1.stats.duplicates_removed =
        df.rows.length - df2.rows.length := by
    intro s subset keep df df2 hdf hok
    simp [step, hdf, hok, applyOk]
  refine ⟨h1, ?_, ?_⟩
  · intro s strategy fv df df2 hdf hok
    simp [step, hdf, hok, applyOk]
  · intro s sub1 sub2 k1 k2 df1 df2 hdf1 hok2
    exact h1 _ sub2 k2 df1 df2 hdf1 hok2

/-- C10 witness: a concrete second dedup call overwrites the counter with its
own (zero) delta. -/
theorem dedup_and_missing_counters_overwritten_witness :
    (step { df := some dupTable, stats := { duplicates_removed := 7 } }
        (.remove_duplicates Option.none .first)).1.stats.duplicates_removed =
      dupTable.rows.length - dupTableDeduped.rows.length :=
  dedup_and_missing_counters_overwritten.1
    { df := some dupTable, stats := { duplicates_removed := 7 } }
    Option.none .first dupTable dupTableDeduped rfl (by rfl)

/-- C5 counterexample: calling `finish` on a fresh pipeline moves the status
from `pending` directly to `completed`, a transition the spec sentence
forbids. -/
theorem status_pending_to_completed_directly :
    statusTrace [Method.finish Option.none "t"] = ["pending", "completed"] ∧
    ¬ specStatusStep "pending" "completed" := by
  decide

/-- Shared: one step either leaves the status alone, or is a `run` setting
`running`, or is a `finish` setting `completed`. -/
theorem step_status_cases (s : PState) (m : Method) :
    (step s m).1.stats.status = s.stats.status ∨
    ((∃ st, m = Method.run st) ∧ (step s m).1.stats.status = "running") ∨
    ((∃ et e, m = Method.finish et e) ∧ (step s m).1.stats.status = "completed") := by
  cases m with
  | run st => exact Or.inr (Or.inl ⟨⟨st, rfl⟩, by simp [step]⟩)
  | finish et e =>
    refine Or.inr (Or.inr ⟨⟨et, e, rfl⟩, ?_⟩)
    cases et <;> simp [step]
  | extract t => exact Or.inl (by simp [step])
  | _ =>
    refine Or.inl ?_
    cases hdf : s.df <;>
      simp only [step, hdf] <;>
      first
        | (split <;> simp [applyOk])
        | simp [applyOk]

/-- Shared: along any run, a state's status is `running`, `completed`, or the
status the run started from. -/
theorem statesFrom_status (ms : List Method) :
    ∀ (s : PState), ∀ x ∈ statesFrom s ms,
      x.stats.status = "running" ∨ x.stats.status = "completed" ∨
        x.stats.status = s.stats.status := by
  induction ms with
  | nil => intro s x hx; cases hx
  | cons m ms ih =>
    intro s x hx
    rw [statesFrom] at hx
    rcases List.mem_cons.mp hx with rfl | hmem
    · rcases step_status_cases s m with h | ⟨_, h⟩ | ⟨_, h⟩
      · exact Or.inr (Or.inr h)
      · exact Or.inl h
      · exact Or.inr (Or.inl h)
    · rcases ih (step s m).1 x hmem with h | h | h
      · exact Or.inl h
      · exact Or.inr (Or.inl h)
      · rcases step_status_cases s m with h2 | ⟨_, h2⟩ | ⟨_, h2⟩
        · exact Or.inr (Or.inr (h.trans h2))
        · exact Or.inl (h.trans h2)
        · exact Or.inr (Or.inl (h.trans h2))

/-- C5 as amended: `run` always sets `running` and `finish` always sets
`completed`, from any current status (so `pending`→`completed` and
`completed`→`running` are reachable); no other method changes the status, and
along any call sequence the status only ever takes the values `pending`,
`running`, `completed` — the value `failed` is never assigned. -/
theorem status_lifecycle_behavior :
    (∀ (s : PState) (m : Method),
        (step s m).1.stats.status = s.stats.status ∨
        ((∃ st, m = Method.run st) ∧ (step s m).1.stats.status = "running") ∨
        ((∃ et e, m = Method.finish et e) ∧
          (step s m).1.stats.status = "completed")) ∧
    (∀ (s : PState) (st : String) (et : Option ℚ) (e : String),
        (step s (Method.run st)).1.stats.status = "running" ∧
        (step s (Method.finish et e)).1.stats.status = "completed") ∧
    (∀ (ms : List Method), ∀ x ∈ statusTrace ms,
        x = "pending" ∨ x = "running" ∨ x = "completed") := by
  refine ⟨step_status_cases, ?_, ?_⟩
  · intro s st et e
    constructor
    · simp [step]
    · cases et <;> simp [step]
  · intro ms x hx
    rw [statusTrace] at hx
    rcases List.mem_cons.mp hx with rfl | hmem
    · exact Or.inl rfl
    · rcases List.mem_map.mp hmem with ⟨y, hy, rfl⟩
      rcases statesFrom_status ms initState y hy with h | h | h
      · exact Or.inr (Or.inl h)
      · exact Or.inr (Or.inr h)
      · exact Or.inl h

/-- C5 witness: the amended lifecycle behavior at concrete inputs. -/
theorem status_lifecycle_behavior_witness :
    ("running" = "pending" ∨ "running" = "running" ∨ "running" = "completed") ∧
    (step initState (Method.run "a")).1.stats.status = "running" :=
  ⟨status_lifecycle_behavior.2.2 [Method.run "a"] "running" (by decide),
   (status_lifecycle_behavior.2.1 initState "a" Option.none "e").1⟩

/-- C8: a schema field absent from the row forces `is_valid = false` with the
hard error naming the field, and a row is valid exactly when no error
accumulated. -/
theorem validate_row_missing_field_and_validity :
    (∀ (row : List (String × PyVal)) (schema : List (String × DataValidator.Rules))
        (field : String) (rules : DataValidator.Rules),
        (field, rules) ∈ schema → row.lookup field = Option.none →
        (DataValidator.validate_row row schema).is_valid = false ∧
        ("Campo obrigatório ausente: " ++ field) ∈
          (DataValidator.validate_row row schema).errors) ∧
    (∀ (row : List (String × PyVal)) (schema : List (String × DataValidator.Rules)),
        (DataValidator.validate_row row schema).is_valid = true ↔
        (DataValidator.validate_row row schema).errors = []) := by
  constructor
  · intro row schema field rules hmem hlk
    have herr : ("Campo obrigatório ausente: " ++ field) ∈
        (DataValidator.validate_row row schema).errors := by
      simp only [DataValidator.validate_row]
      apply List.mem_flatMap.mpr
      exact ⟨(field, rules), hmem, by simp [hlk]⟩
    refine ⟨?_, herr⟩
    simp only [DataValidator.validate_row] at herr ⊢
    rcases h : (schema.flatMap fun fr =>
        match row.lookup fr.1 with
        | Option.none => ["Campo obrigatório ausente: " ++ fr.1]
        | some v => DataValidator.fieldErrors fr.1 fr.2 v) with _ | ⟨e, es⟩
    · rw [h] at herr
      cases herr
    · simp [h]
  · intro row schema
    simp [DataValidator.validate_row, List.isEmpty_iff]

/-- C8 witness: a concrete row missing the declared `email` field. -/
theorem validate_row_missing_field_witness :
    (DataValidator.validate_row [("id", .int 1)] [("email", {})]).is_valid = false ∧
    ("Campo obrigatório ausente: " ++ "email") ∈
      (DataValidator.validate_row [("id", .int 1)] [("email", {})]).errors :=
  validate_row_missing_field_and_validity.1 [("id", .int 1)] [("email", {})]
    "email" {} (by simp) rfl

/-! Deduplication lemmas for C7. -/

theorem dedupFirstAux_sublist {α K : Type} [DecidableEq K] (key : α → K) :
    ∀ (l : List α) (seen : List K),
      (DataTransformer.dedupFirstAux key seen l).Sublist l := by
  intro l
  induction l with
  | nil => intro seen; simp [DataTransformer.dedupFirstAux]
  | cons x xs ih =>
    intro seen
    rw [DataTransformer.dedupFirstAux]
    split
    · exact (ih seen).cons x
    · exact (ih (key x :: seen)).cons₂ x

theorem key_not_seen_of_mem_dedupFirstAux {α K : Type} [DecidableEq K] (key : α → K) :
    ∀ (l : List α) (seen : List K) (x : α),
      x ∈ DataTransformer.dedupFirstAux key seen l → key x ∉ seen := by
  intro l
  induction l with
  | nil => intro seen x hx; cases hx
  | cons y ys ih =>
    intro seen x hx
    rw [DataTransformer.dedupFirstAux] at hx
    split at hx
    · exact ih seen x hx
    · rcases List.mem_cons.mp hx with rfl | hmem
      · assumption
      · exact fun h => ih (key y :: seen) x hmem (List.mem_cons_of_mem _ h)

theorem dedupFirstAux_keys_nodup {α K : Type} [DecidableEq K] (key : α → K) :
    ∀ (l : List α) (seen : List K),
      ((DataTransformer.dedupFirstAux key seen l).map key).Nodup := by
  intro l
  induction l with
  | nil => intro seen; simp [DataTransformer.dedupFirstAux]
  | cons y ys ih =>
    intro seen
    rw [DataTransformer.dedupFirstAux]
    split
    · exact ih seen
    · rw [List.map_cons, List.nodup_cons]
      refine ⟨?_, ih (key y :: seen)⟩
      intro hmem
      rcases List.mem_map.mp hmem with ⟨x, hx, hkx⟩
      exact key_not_seen_of_mem_dedupFirstAux key ys (key y :: seen) x hx
        (hkx ▸ List.mem_cons_self _ _)

theorem dedupFirstAux_eq_self {α K : Type} [DecidableEq K] (key : α → K) :
    ∀ (l : List α) (seen : List K), ((l.map key).Nodup) →
      (∀ x ∈ l, key x ∉ seen) →
      DataTransformer.dedupFirstAux key seen l = l := by
  intro l
  induction l with
  | nil => intro seen _ _; rfl
  | cons y ys ih =>
    intro seen hnd hdisj
    rw [List.map_cons, List.nodup_cons] at hnd
    rw [DataTransformer.dedupFirstAux, if_neg (hdisj y (List.mem_cons_self y ys))]
    congr 1
    refine ih (key y :: seen) hnd.2 ?_
    intro x hx hmem
    rcases List.mem_cons.mp hmem with hk | hk
    · exact hnd.1 (hk ▸ List.mem_map_of_mem key hx)
    · exact hdisj x (List.mem_cons_of_mem _ hx) hk

theorem dedupFirst_idem {α K : Type} [DecidableEq K] (key : α → K) (l : List α) :
    DataTransformer.dedupFirst key (DataTransformer.dedupFirst key l) =
      DataTransformer.dedupFirst key l :=
  dedupFirstAux_eq_self key _ [] (dedupFirstAux_keys_nodup key l [])
    (fun x _ h => List.not_mem_nil (key x) h)

theorem dedupLast_sublist {α K : Type} [DecidableEq K] (key : α → K) (l : List α) :
    (DataTransformer.dedupLast key l).Sublist l := by
  have h := (dedupFirstAux_sublist key l.reverse []).reverse
  rwa [List.reverse_reverse] at h

theorem dedupLast_idem {α K : Type} [DecidableEq K] (key : α → K) (l : List α) :
    DataTransformer.dedupLast key (DataTransformer.dedupLast key l) =
      DataTransformer.dedupLast key l := by
  rw [DataTransformer.dedupLast, DataTransformer.dedupLast, List.reverse_reverse,
    dedupFirst_idem]

theorem dedupAll_sublist {α K : Type} [DecidableEq K] (key : α → K) (l : List α) :
    (DataTransformer.dedupAll key l).Sublist l :=
  List.filter_sublist l

theorem dedupAll_idem {α K : Type} [DecidableEq K] (key : α → K) (l : List α) :
    DataTransformer.dedupAll key (DataTransformer.dedupAll key l) =
      DataTransformer.dedupAll key l := by
  conv_lhs => rw [DataTransformer.dedupAll]
  apply List.filter_eq_self.mpr
  intro x hx
  have hcount : l.countP (fun y => key y == key x) = 1 := by
    have := List.of_mem_filter hx
    simpa using this
  have hle : (DataTransformer.dedupAll key l).countP (fun y => key y == key x) ≤
      l.countP (fun y => key y == key x) :=
    (dedupAll_sublist key l).countP_le _
  have hge : 0 < (DataTransformer.dedupAll key l).countP (fun y => key y == key x) :=
    List.countP_pos_iff.mpr ⟨x, hx, by simp⟩
  have : (DataTransformer.dedupAll key l).countP (fun y => key y == key x) = 1 := by
    omega
  simp [this]

/-- C7: `remove_duplicates` is idempotent for every subset and keep policy,
survivors keep their original relative order (the result rows form a sublist
of the input rows), and the columns are unchanged. -/
theorem remove_duplicates_idempotent_and_stable :
    ∀ (t t' : Table) (subset : Option (List String)) (keep : DataTransformer.Keep),
      DataTransformer.remove_duplicates t subset keep = Except.ok t' →
      DataTransformer.remove_duplicates t' subset keep = Except.ok t' ∧
      t'.rows.Sublist t.rows ∧ t'.cols = t.cols := by
  intro t t' subset keep hok
  rw [DataTransformer.remove_duplicates.eq_def] at hok
  split at hok
  · rename_i hvalid
    rw [Except.ok.injEq] at hok
    subst hok
    cases keep
    · exact ⟨by simp [DataTransformer.remove_duplicates.eq_def, hvalid, dedupFirst_idem],
        dedupFirstAux_sublist _ _ _, rfl⟩
    · exact ⟨by simp [DataTransformer.remove_duplicates.eq_def, hvalid, dedupLast_idem],
        dedupLast_sublist _ _, rfl⟩
    · exact ⟨by simp [DataTransformer.remove_duplicates.eq_def, hvalid, dedupAll_idem],
        dedupAll_sublist _ _, rfl⟩
  · cases hok

/-! Column-access lemmas for C6. -/

theorem findIdx?_lt_length {α : Type} {p : α → Bool} {l : List α} {i : ℕ}
    (h : l.findIdx? p = some i) : i < l.length :=
  (List.findIdx?_eq_some_iff_findIdx_eq.mp h).1

theorem getD_set_self {α : Type} {l : List α} {i : ℕ} {x d : α} (h : i < l.length) :
    (l.set i x).getD i d = x := by
  simp [List.getD, List.getElem?_set_self, h]

theorem colCells_mapCol (t : Table) (i : ℕ) (f : Cell → Cell)
    (hw : ∀ r ∈ t.rows, i < r.length) :
    colCells (mapCol t i f) i = (colCells t i).map f := by
  simp only [colCells, mapCol, List.map_map]
  apply List.map_congr_left
  intro r hr
  simp only [Function.comp_apply]
  exact getD_set_self (hw r hr)

theorem colNums_map_minmax (mn mx : ℚ) (cells : List Cell) :
    colNums (cells.map (DataTransformer.minmaxCell mn mx)) =
      (colNums cells).map (fun q => (q - mn) / (mx - mn)) := by
  induction cells with
  | nil => rfl
  | cons c cs ih =>
    cases c with
    | none => simpa [colNums, DataTransformer.minmaxCell, List.filterMap_cons] using ih
    | some v =>
      cases v <;>
        simpa [colNums, DataTransformer.minmaxCell, List.filterMap_cons] using ih

/-- C6: with a present, string-free column whose numeric values are not all
equal, `minmax` rewrites the column by `(v - min) / (max - min)` and every
resulting numeric value lies in `[0, 1]`; with all values equal the whole
column (missing cells included) becomes `0` and no error is raised; Scenario
B maps `[10, 20, 30]` to `[0, 0.5, 1]`. -/
theorem minmax_normalization_bounds_and_degenerate :
    (∀ (t : Table) (col : String) (i : ℕ) (mn mx : ℚ),
        t.WF → colIdx t.cols col = some i →
        hasStrCell (colCells t i) = false →
        (colNums (colCells t i)).min? = some mn →
        (colNums (colCells t i)).max? = some mx →
        mn ≠ mx →
        DataTransformer.normalize_column t col "minmax" =
          Except.ok (mapCol t i (DataTransformer.minmaxCell mn mx)) ∧
        colCells (mapCol t i (DataTransformer.minmaxCell mn mx)) i =
          (colCells t i).map (DataTransformer.minmaxCell mn mx) ∧
        (∀ q ∈ colNums (colCells (mapCol t i (DataTransformer.minmaxCell mn mx)) i),
          0 ≤ q ∧ q ≤ 1)) ∧
    (∀ (t : Table) (col : String) (i : ℕ) (mn : ℚ),
        t.WF → colIdx t.cols col = some i →
        hasStrCell (colCells t i) = false →
        (colNums (colCells t i)).min? = some mn →
        (colNums (colCells t i)).max? = some mn →
        DataTransformer.normalize_column t col "minmax" =
          Except.ok (setColConst t i (some (.num 0))) ∧
        (∀ c ∈ colCells (setColConst t i (some (.num 0))) i, c = some (.num 0))) ∧
    DataTransformer.normalize_column ageTable "age" "minmax" =
      Except.ok ageTableNorm := by
  have hwidth : ∀ (t : Table) (i : ℕ), t.WF → i < t.cols.length →
      ∀ r ∈ t.rows, i < r.length := by
    intro t i hwf hi r hr
    rw [hwf r hr]
    exact hi
  have p1 : ∀ (t : Table) (col : String) (i : ℕ) (mn mx : ℚ),
      t.WF → colIdx t.cols col = some i →
      hasStrCell (colCells t i) = false →
      (colNums (colCells t i)).min? = some mn →
      (colNums (colCells t i)).max? = some mx →
      mn ≠ mx →
      DataTransformer.normalize_column t col "minmax" =
        Except.ok (mapCol t i (DataTransformer.minmaxCell mn mx)) ∧
      colCells (mapCol t i (DataTransformer.minmaxCell mn mx)) i =
        (colCells t i).map (DataTransformer.minmaxCell mn mx) ∧
      (∀ q ∈ colNums (colCells (mapCol t i (DataTransformer.minmaxCell mn mx)) i),
        0 ≤ q ∧ q ≤ 1) := by
    intro t col i mn mx hwf hci hstr hmin hmax hne
    have hmnmx : mn ≤ mx :=
      le_max?_of_mem hmax (List.min?_mem (fun _ _ => min_choice _ _) hmin)
    have hlt : mn < mx := lt_of_le_of_ne hmnmx hne
    have hcells := colCells_mapCol t i (DataTransformer.minmaxCell mn mx)
      (hwidth t i hwf (findIdx?_lt_length hci))
    refine ⟨?_, hcells, ?_⟩
    · simp [DataTransformer.normalize_column, colIdx] at hci ⊢
      simp [hci, hstr, hmin, hmax, hne.symm]
    · intro q hq
      rw [hcells, colNums_map_minmax] at hq
      rcases List.mem_map.mp hq with ⟨v, hv, rfl⟩
      have h1 : mn ≤ v := min?_le_of_mem hmin hv
      have h2 : v ≤ mx := le_max?_of_mem hmax hv
      constructor
      · exact div_nonneg (sub_nonneg.mpr h1) (le_of_lt (sub_pos.mpr hlt))
      · rw [div_le_one (sub_pos.mpr hlt)]
        exact sub_le_sub_right h2 mn
  refine ⟨p1, ?_, ?_⟩
  · intro t col i mn hwf hci hstr hmin hmax
    constructor
    · simp [DataTransformer.normalize_column, colIdx] at hci ⊢
      simp [hci, hstr, hmin, hmax]
    · intro c hc
      rw [setColConst, colCells_mapCol t i _
        (hwidth t i hwf (findIdx?_lt_length hci))] at hc
      rcases List.mem_map.mp hc with ⟨_, _, rfl⟩
      rfl
  · have heq : mapCol ageTable 0 (DataTransformer.minmaxCell 10 30) = ageTableNorm := by
      simp only [mapCol, ageTable, ageTableNorm, DataTransformer.minmaxCell]
      norm_num
    have hb := (p1 ageTable "age" 0 10 30 (by decide) rfl rfl rfl rfl
      (by norm_num)).1
    rw [hb, heq]

/-- C6 witness: the non-degenerate part applied to Scenario B's table. -/
theorem minmax_normalization_bounds_witness :
    DataTransformer.normalize_column ageTable "age" "minmax" =
      Except.ok (mapCol ageTable 0 (DataTransformer.minmaxCell 10 30)) ∧
    colCells (mapCol ageTable 0 (DataTransformer.minmaxCell 10 30)) 0 =
      (colCells ageTable 0).map (DataTransformer.minmaxCell 10 30) ∧
    (∀ q ∈ colNums (colCells (mapCol ageTable 0 (DataTransformer.minmaxCell 10 30)) 0),
      0 ≤ q ∧ q ≤ 1) :=
  minmax_normalization_bounds_and_degenerate.1 ageTable "age" 0 10 30
    (by decide) rfl rfl rfl rfl (by norm_num)

/-- C7 witness: concrete deduplication applied twice. -/
theorem remove_duplicates_idempotent_witness :
    DataTransformer.remove_duplicates dupTableDeduped Option.none .first =
      Except.ok dupTableDeduped ∧
    dupTableDeduped.rows.Sublist dupTable.rows ∧
    dupTableDeduped.cols = dupTable.cols :=
  remove_duplicates_idempotent_and_stable dupTable dupTableDeduped Option.none
    .first (by rfl)

end ETL
